import Mathlib

/-!
Verification of the sheet-analytics engine of the windo repository.

The definitions below are a shallow embedding of the TypeScript source:
filter evaluation and row parsing from src/app/lib/googleSheets.ts, and the
analytics pipeline (day bucketing, delta calculation, column reconciliation,
snapshot merging) from the profile page components.  JavaScript machine
numbers appearing in cell arithmetic are modelled by the JSVal type below
(rationals extended with the IEEE special values NaN and signed infinity,
with exact rational arithmetic in place of binary rounding and overflow,
so only rounding- and overflow-insensitive properties of the cell
arithmetic are stated over it); integer counts
and percentage ratios coming from list lengths are modelled by Int and Rat.
JavaScript strings are modelled by Lean strings; the locale-dependent
localeCompare comparator, applied in the source only to ISO formatted
YYYY-MM-DD dates, is modelled by code-point lexicographic comparison, and
the built-in trim, toLowerCase, startsWith, endsWith and includes methods
are modelled character-wise on the underlying character lists.  The stable
sort guaranteed by the JavaScript runtime for Array.prototype.sort is
modelled by a stable insertion sort.
-/

namespace Windo

/-! ## String helpers (models of the JavaScript string built-ins used) -/

/-- Code-point lexicographic order on character lists, the behaviour of
localeCompare on the ASCII date strings the source compares. -/
def lexLe : List Char → List Char → Bool
  | [], _ => true
  | _ :: _, [] => false
  | c :: cs, d :: ds =>
    if c.toNat < d.toNat then true
    else if d.toNat < c.toNat then false
    else lexLe cs ds

/-- String comparison used to model the comparator b.date.localeCompare(a.date). -/
def strLe (a b : String) : Bool :=
  lexLe a.data b.data

/-- Model of the JavaScript toLowerCase on the strings the filters compare. -/
def strLower (s : String) : String :=
  String.mk (s.data.map Char.toLower)

/-- Whitespace recognised by the model of trim. -/
def isWs (c : Char) : Bool :=
  c == ' ' || c == '\t' || c == '\n' || c == '\r'

/-- Model of the JavaScript String.prototype.trim. -/
def trimS (s : String) : String :=
  String.mk (((s.data.dropWhile isWs).reverse.dropWhile isWs).reverse)

/-- Substring containment, the model of String.prototype.includes. -/
def listIncludes (hay sub : List Char) : Bool :=
  if sub.isPrefixOf hay then true
  else
    match hay with
    | [] => false
    | _ :: t => listIncludes t sub

/-- The date portion of a timestamp cell: row.date.split(" ")[0]. -/
def dateKey (s : String) : String :=
  String.mk (s.data.takeWhile (fun c => !(c == ' ')))

/-- JavaScript truthiness of a nullable string: null and the empty string
are falsy. -/
def strTruthy (o : Option String) : Bool :=
  match o with
  | none => false
  | some s => !(s == "")

/-- JavaScript truthiness of a nullable number: null and 0 are falsy. -/
def intTruthy (o : Option Int) : Bool :=
  match o with
  | none => false
  | some n => !(n == 0)

/-! ## Filter data model (profilesDB.ts) -/

/-- The operator field of FilterConfig in profilesDB.ts. -/
inductive FilterOp where
  | equals
  | contains
  | startsWith
  | endsWith
deriving DecidableEq

/-- The logicalOperator field of FilterGroup in profilesDB.ts. -/
inductive LogicalOp where
  | AND
  | OR
deriving DecidableEq

/-- FilterConfig from profilesDB.ts: a 1-based column, a comparison value
and an operator. -/
structure FilterConfig where
  column : Int
  value : String
  operator : FilterOp
deriving DecidableEq

/-- FilterGroup from profilesDB.ts. -/
structure FilterGroup where
  filters : List FilterConfig
  logicalOperator : LogicalOp
deriving DecidableEq

/-- The cell row[column - 1] with the JavaScript || default: a missing or
out-of-range (including non-positive column) access yields the empty
string, and an empty cell is mapped to the empty string by the || default,
which is the identity on strings. -/
def cellValue (row : List String) (column : Int) : String :=
  match column with
  | Int.ofNat (n + 1) => row.getD n ""
  | _ => ""

/-- applyFilter from googleSheets.ts: operator dispatch, both sides
lower-cased.  The operator type has exactly the four cases, so the
permissive default branch of the source switch is unreachable. -/
def applyFilter (value : String) (f : FilterConfig) : Bool :=
  match f.operator with
  | FilterOp.equals => strLower value == strLower f.value
  | FilterOp.contains => listIncludes (strLower value).data (strLower f.value).data
  | FilterOp.startsWith => (strLower f.value).data.isPrefixOf (strLower value).data
  | FilterOp.endsWith => List.isSuffixOf (strLower f.value).data (strLower value).data

/-- One group of applyFilters: filters combined with every for AND and
some for OR, each filter reading row[filter.column - 1] || "". -/
def evalGroup (row : List String) (g : FilterGroup) : Bool :=
  match g.logicalOperator with
  | LogicalOp.AND => g.filters.all (fun f => applyFilter (cellValue row f.column) f)
  | LogicalOp.OR => g.filters.any (fun f => applyFilter (cellValue row f.column) f)

/-- applyFilters from googleSheets.ts: absent or empty group list accepts
every row, otherwise the groups are combined with every (AND across
groups). -/
def applyFilters (row : List String) (filterGroups : Option (List FilterGroup)) : Bool :=
  match filterGroups with
  | none => true
  | some gs => if gs.isEmpty then true else gs.all (evalGroup row)

/-! ## Row parsing (fetchSheetData in googleSheets.ts) -/

/-- SheetData from googleSheets.ts. -/
structure SheetData where
  date : String
  values : List String
  rowIndex : Nat
  matchesFilters : Bool
deriving DecidableEq

/-- A raw spreadsheet row as delivered by the API: either a proper cell
sequence or a malformed (non-array) value. -/
inductive RawRow where
  | malformed
  | proper (cells : List String)
deriving DecidableEq

/-- The per-row transform inside fetchSheetData: a malformed row degrades
to the empty parsed row; otherwise the date cell is spliced out of a copy
of the row when the 0-based dateColumnIndex is in bounds, and the filters
are applied to the original, unspliced row.  The || default applied to the
extracted date is the identity on strings, since an absent cell only
arises out of bounds, where the source uses the empty string directly. -/
def parseRow (dateColumnIndex : Nat) (filterGroups : Option (List FilterGroup))
    (index : Nat) (r : RawRow) : SheetData :=
  match r with
  | RawRow.malformed => { date := "", values := [], rowIndex := index + 1, matchesFilters := false }
  | RawRow.proper row =>
    let date := if row.length > dateColumnIndex then row.getD dateColumnIndex "" else ""
    let values :=
      if row.length > dateColumnIndex then
        row.take dateColumnIndex ++ row.drop (dateColumnIndex + 1)
      else row
    { date := date, values := values, rowIndex := index + 1,
      matchesFilters := applyFilters row filterGroups }

/-- The rows.map of fetchSheetData, carrying the 0-based position used for
rowIndex. -/
def parseRows (dateColumnIndex : Nat) (filterGroups : Option (List FilterGroup))
    (rows : List RawRow) : List SheetData :=
  rows.enum.map (fun p => parseRow dateColumnIndex filterGroups p.fst p.snd)

/-! ## Analytics data model (profile page components) -/

/-- EntryCount from the profile page. -/
structure EntryCount where
  date : String
  count : Int
  sheetName : String
deriving DecidableEq

/-- DeltaChange from the profile page.  The yesterday field holds the
comparison-day count, which is either the literal previous day or the
custom comparison day. -/
structure DeltaChange where
  today : Int
  yesterday : Int
  change : Int
  percentageChange : ℚ
deriving DecidableEq

/-- ColumnChange from the profile page. -/
structure ColumnChange where
  added : List String
  removed : List String
  column : Int
  date1 : String
  date2 : String
deriving DecidableEq

/-- DeltaDetails from the profile page. -/
structure DeltaDetails where
  change : DeltaChange
  columnChanges : Option ColumnChange
deriving DecidableEq

/-! ## Day bucketing (countEntriesPerDay) -/

/-- A calendar date, used to model the reference date new Date() and the
date-fns subDays and format calls. -/
structure GDate where
  year : Nat
  month : Nat
  day : Nat
deriving DecidableEq

/-- Gregorian leap year. -/
def isLeap (y : Nat) : Bool :=
  y % 4 == 0 && (y % 100 != 0 || y % 400 == 0)

/-- Days in a Gregorian month. -/
def daysInMonth (y m : Nat) : Nat :=
  if m == 2 then (if isLeap y then 29 else 28)
  else if m == 4 || m == 6 || m == 9 || m == 11 then 30
  else 31

/-- The previous calendar day. -/
def prevDay (d : GDate) : GDate :=
  if d.day > 1 then { d with day := d.day - 1 }
  else if d.month > 1 then { year := d.year, month := d.month - 1, day := daysInMonth d.year (d.month - 1) }
  else { year := d.year - 1, month := 12, day := 31 }

/-- Model of subDays from date-fns. -/
def subDays (d : GDate) : Nat → GDate
  | 0 => d
  | n + 1 => prevDay (subDays d n)

/-- Left-pad a decimal numeral with zeros to the given width. -/
def padNum (width n : Nat) : String :=
  let s := toString n
  String.mk (List.replicate (width - s.length) '0') ++ s

/-- Model of format(date, "yyyy-MM-dd") from date-fns. -/
def fmtDate (d : GDate) : String :=
  padNum 4 d.year ++ "-" ++ padNum 2 d.month ++ "-" ++ padNum 2 d.day

/-- countEntriesPerDay from the profile page, with the reference date
new Date() made an explicit parameter.  The body of the source filter
callback cannot throw, so the try/catch around it is the identity. -/
def countEntriesPerDay (today : GDate) (sheetData : List SheetData)
    (sheetName : String) : List EntryCount :=
  (List.range 7).map (fun i =>
    let formattedDate := fmtDate (subDays today i)
    { date := formattedDate,
      count := ((sheetData.filter
        (fun row => row.matchesFilters && (dateKey row.date == formattedDate))).length : Int),
      sheetName := sheetName })

/-! ## JavaScript numbers for the adjacent-row comparison (compareData) -/

/-- A JavaScript number as it occurs in the cell arithmetic of
compareData: NaN, a signed infinity, or a finite value, the finite values
modelled exactly by rationals.  Exact rationals carry neither the rounding
nor the overflow of IEEE doubles, so finite-operand operations that would
overflow to an infinity in the source stay finite in this model; the model
therefore supports only statements that are insensitive to rounding and
overflow, namely the zero-denominator guard (which returns a literal 0
before any arithmetic) and the propagation of parsed special values, and
no finiteness guarantee is stated or provable from it. -/
inductive JSVal where
  | nan
  | inf
  | ninf
  | fin (q : ℚ)
deriving DecidableEq

/-- IEEE subtraction on the special values; finite values are subtracted
exactly, without the rounding or overflow of double subtraction. -/
def jsSub : JSVal → JSVal → JSVal
  | JSVal.nan, _ => JSVal.nan
  | _, JSVal.nan => JSVal.nan
  | JSVal.inf, JSVal.inf => JSVal.nan
  | JSVal.inf, _ => JSVal.inf
  | JSVal.ninf, JSVal.ninf => JSVal.nan
  | JSVal.ninf, _ => JSVal.ninf
  | JSVal.fin _, JSVal.inf => JSVal.ninf
  | JSVal.fin _, JSVal.ninf => JSVal.inf
  | JSVal.fin a, JSVal.fin b => JSVal.fin (a - b)

/-- IEEE division on the special values; x/0 is a signed infinity and 0/0
is NaN, as in JavaScript, while finite values are divided exactly, without
the rounding or overflow of double division. -/
def jsDiv : JSVal → JSVal → JSVal
  | JSVal.nan, _ => JSVal.nan
  | _, JSVal.nan => JSVal.nan
  | JSVal.inf, JSVal.inf => JSVal.nan
  | JSVal.inf, JSVal.ninf => JSVal.nan
  | JSVal.inf, JSVal.fin b => if b < 0 then JSVal.ninf else JSVal.inf
  | JSVal.ninf, JSVal.inf => JSVal.nan
  | JSVal.ninf, JSVal.ninf => JSVal.nan
  | JSVal.ninf, JSVal.fin b => if b < 0 then JSVal.inf else JSVal.ninf
  | JSVal.fin _, JSVal.inf => JSVal.fin 0
  | JSVal.fin _, JSVal.ninf => JSVal.fin 0
  | JSVal.fin a, JSVal.fin b =>
    if b = 0 then (if a = 0 then JSVal.nan else if a < 0 then JSVal.ninf else JSVal.inf)
    else JSVal.fin (a / b)

/-- IEEE multiplication on the special values; finite values are
multiplied exactly, without the rounding or overflow of double
multiplication. -/
def jsMul : JSVal → JSVal → JSVal
  | JSVal.nan, _ => JSVal.nan
  | _, JSVal.nan => JSVal.nan
  | JSVal.inf, JSVal.inf => JSVal.inf
  | JSVal.inf, JSVal.ninf => JSVal.ninf
  | JSVal.inf, JSVal.fin b => if b = 0 then JSVal.nan else if b < 0 then JSVal.ninf else JSVal.inf
  | JSVal.ninf, JSVal.inf => JSVal.ninf
  | JSVal.ninf, JSVal.ninf => JSVal.inf
  | JSVal.ninf, JSVal.fin b => if b = 0 then JSVal.nan else if b < 0 then JSVal.inf else JSVal.ninf
  | JSVal.fin a, JSVal.inf => if a = 0 then JSVal.nan else if a < 0 then JSVal.ninf else JSVal.inf
  | JSVal.fin a, JSVal.ninf => if a = 0 then JSVal.nan else if a < 0 then JSVal.inf else JSVal.ninf
  | JSVal.fin a, JSVal.fin b => JSVal.fin (a * b)

/-- The JavaScript idiom x || 0 on a number: NaN and 0 are falsy and are
replaced by 0; infinities are truthy and pass through. -/
def orZero (v : JSVal) : JSVal :=
  if v = JSVal.nan then JSVal.fin 0
  else if v = JSVal.fin 0 then JSVal.fin 0
  else v

/-- The numeric value of a digit string. -/
def digitsVal (cs : List Char) : Nat :=
  cs.foldl (fun n c => 10 * n + (c.toNat - 48)) 0

/-- An unsigned decimal numeral, digits with an optional fractional part,
as accepted by the JavaScript Number conversion. -/
def parseUnsigned (cs : List Char) : Option ℚ :=
  let intPart := cs.takeWhile Char.isDigit
  let rest := cs.dropWhile Char.isDigit
  match rest with
  | [] => if intPart.isEmpty then none else some ((digitsVal intPart : ℚ))
  | '.' :: fracs =>
    if fracs.all Char.isDigit && !(intPart.isEmpty && fracs.isEmpty) then
      some ((digitsVal intPart : ℚ) + (digitsVal fracs : ℚ) / ((10 : ℚ) ^ fracs.length))
    else none
  | _ => none

/-- Model of the JavaScript Number conversion on a string cell: trimmed
whitespace, empty string to 0, the Infinity literals, optionally signed
decimal numerals.  Exponent and hex forms, absent from the modelled data,
are mapped to NaN where JS parses them as numbers, and every decimal
numeral is kept as an exact rational, so numerals beyond the double range
stay finite here where JS Number overflows to Infinity: this parser is
faithful on the special literals and on in-range plain numerals only, and
no theorem in this file reads a finiteness guarantee off it. -/
def jsNumber (s : String) : JSVal :=
  let t := trimS s
  if t = "" then JSVal.fin 0
  else if t = "Infinity" || t = "+Infinity" then JSVal.inf
  else if t = "-Infinity" then JSVal.ninf
  else
    match t.data with
    | '+' :: rest => (parseUnsigned rest).elim JSVal.nan JSVal.fin
    | '-' :: rest => (parseUnsigned rest).elim JSVal.nan (fun q => JSVal.fin (-q))
    | cs => (parseUnsigned cs).elim JSVal.nan JSVal.fin

/-- Number(cells[idx]) || 0, where an out-of-range access gives undefined,
Number(undefined) is NaN, and NaN || 0 is 0. -/
def cellNum (cells : List String) (idx : Nat) : JSVal :=
  match cells.get? idx with
  | some s => orZero (jsNumber s)
  | none => JSVal.fin 0

/-- One entry of the differences array of compareData. -/
structure Difference where
  column : Nat
  columnName : String
  previous : JSVal
  current : JSVal
  percentageChange : JSVal
deriving DecidableEq

/-- ComparisonResult from the profile page. -/
structure ComparisonResult where
  sheetName : String
  date1 : String
  date2 : String
  differences : List Difference
deriving DecidableEq

/-- The adjacent pairs (sheetData[i-1], sheetData[i]) visited by the
compareData loop. -/
def adjPairs : List α → List (α × α)
  | a :: b :: rest => (a, b) :: adjPairs (b :: rest)
  | _ => []

/-- The differences array computed by compareData for one adjacent pair. -/
def pairDifferences (previous current : SheetData) : List Difference :=
  (current.values.enum.map (fun p =>
    let previousValue := cellNum previous.values p.fst
    let currentValue := orZero (jsNumber p.snd)
    let percentageChange :=
      if previousValue = JSVal.fin 0 then JSVal.fin 0
      else jsMul (jsDiv (jsSub currentValue previousValue) previousValue) (JSVal.fin 100)
    { column := p.fst + 1,
      columnName := "Column " ++ toString (p.fst + 1),
      previous := previousValue,
      current := currentValue,
      percentageChange := percentageChange })).filter
    (fun diff => !(diff.percentageChange == JSVal.fin 0))

/-- compareData from the profile page: for every adjacent pair of rows, a
result is pushed exactly when its differences array is non-empty. -/
def compareData (sheetData : List SheetData) (sheetName : String) : List ComparisonResult :=
  (adjPairs sheetData).filterMap (fun p =>
    let differences := pairDifferences p.fst p.snd
    if differences.isEmpty then none
    else some { sheetName := sheetName, date1 := p.fst.date, date2 := p.snd.date,
                differences := differences })

/-! ## Sorting entries by date, descending (the sort comparator
(a, b) => b.date.localeCompare(a.date), a stable sort in JavaScript) -/

/-- Stable insertion into a sorted list: the new element goes before the
first element it is related to, hence after every tied earlier element. -/
def insertBy (le : α → α → Bool) (a : α) : List α → List α
  | [] => [a]
  | b :: bs => if le a b then a :: b :: bs else b :: insertBy le a bs

/-- Stable insertion sort, the model of the stable Array.prototype.sort. -/
def sortBy (le : α → α → Bool) : List α → List α
  | [] => []
  | a :: as => insertBy le a (sortBy le as)

/-- The comparator (a, b) => b.date.localeCompare(a.date): a comes no
later than b exactly when its date is no smaller. -/
def byDateDesc (a b : EntryCount) : Bool :=
  strLe b.date a.date

/-- The sheet's entries sorted by date descending, the common prelude of
calculateDelta, getDeltaDetails and calculateDeltaWithCustomDate. -/
def sortedForSheet (entryCounts : List EntryCount) (sheetName : String) : List EntryCount :=
  sortBy byDateDesc (entryCounts.filter (fun entry => entry.sheetName == sheetName))

/-! ## Delta calculation -/

/-- calculateDelta from the profile page: absent below two sorted entries,
else today minus yesterday with a guarded percentage. -/
def calculateDelta (entryCounts : List EntryCount) (sheetName : String) : Option DeltaChange :=
  match sortedForSheet entryCounts sheetName with
  | first :: second :: _ =>
    let today := first.count
    let yesterday := second.count
    let change := today - yesterday
    some { today := today, yesterday := yesterday, change := change,
           percentageChange :=
             if yesterday = 0 then 0 else (change : ℚ) / (yesterday : ℚ) * 100 }
  | _ => none

/-- The lookup entryCounts.find of the custom comparison date. -/
def findCustomEntry (entryCounts : List EntryCount) (sheetName customDate : String) :
    Option EntryCount :=
  entryCounts.find? (fun entry => entry.sheetName == sheetName && entry.date == customDate)

/-- calculateDeltaWithCustomDate from the profile page: with a truthy
customDate the matching entry is required and there is no fallback; with
no customDate the second sorted entry is used when present. -/
def calculateDeltaWithCustomDate (entryCounts : List EntryCount) (sheetName : String)
    (customDate : Option String) : Option DeltaChange :=
  match sortedForSheet entryCounts sheetName with
  | [] => none
  | first :: rest =>
    let today := first.count
    let compareCount? : Option Int :=
      if strTruthy customDate then
        match findCustomEntry entryCounts sheetName (customDate.getD "") with
        | some e => some e.count
        | none => none
      else
        match rest with
        | second :: _ => some second.count
        | [] => none
    match compareCount? with
    | none => none
    | some compareCount =>
      let change := today - compareCount
      some { today := today, yesterday := compareCount, change := change,
             percentageChange :=
               if compareCount = 0 then 0 else (change : ℚ) / (compareCount : ℚ) * 100 }

/-! ## Column reconciliation (analyzeColumnChanges) -/

/-- values[columnIndex - 1] as an optional cell: undefined outside the
1-based range. -/
def cellAt? (cells : List String) (column : Int) : Option String :=
  match column with
  | Int.ofNat (n + 1) => cells.get? n
  | _ => none

/-- The day entries of analyzeColumnChanges: rows of the given day that
match the filters, the chosen cell trimmed, undefined and empty values
dropped by filter(Boolean). -/
def entriesFor (sheetData : List SheetData) (columnIndex : Int) (d : String) : List String :=
  (sheetData.filter (fun row => (dateKey row.date == d) && row.matchesFilters)).filterMap
    (fun row =>
      match cellAt? row.values columnIndex with
      | none => none
      | some s => let t := trimS s; if t == "" then none else some t)

/-- analyzeColumnChanges from the profile page.  The try/catch of the
source is the identity since the body is total. -/
def analyzeColumnChanges (sheetData : List SheetData) (columnIndex : Int)
    (date1 date2 : String) : Option ColumnChange :=
  let day1Entries := entriesFor sheetData columnIndex date1
  let day2Entries := entriesFor sheetData columnIndex date2
  let added := day2Entries.filter (fun entry => !(day1Entries.contains entry))
  let removed := day1Entries.filter (fun entry => !(day2Entries.contains entry))
  if added.isEmpty && removed.isEmpty then none
  else some { added := added, removed := removed, column := columnIndex,
              date1 := date1, date2 := date2 }

/-! ## Delta details (getDeltaDetails, part_003) -/

/-- The comparison-day resolution of getDeltaDetails: the found custom
entry when the custom date is truthy and matches, else the second sorted
entry when present, else the empty sentinel date that the subsequent
truthiness test turns into an absent result.  A found custom entry always
has the non-empty custom date as its date (the find predicate requires
it), so taking its pair directly is the source behaviour of assigning
compareDate and then testing its truthiness. -/
def resolveCompare (entryCounts : List EntryCount) (sheetName : String)
    (customCompareDate : Option String) (rest : List EntryCount) : String × Int :=
  match (if strTruthy customCompareDate then
      findCustomEntry entryCounts sheetName (customCompareDate.getD "")
    else none) with
  | some e => (e.date, e.count)
  | none =>
    match rest with
    | second :: _ => (second.date, second.count)
    | [] => ("", 0)

/-- getDeltaDetails from the profile page, with the component state made
explicit: hasError is hasProfileError(sheetName) and customCompareDate is
the custom-date state. -/
def getDeltaDetails (hasError : Bool) (customCompareDate : Option String)
    (entryCounts : List EntryCount) (sheetName : String)
    (sheetData : List SheetData) (columnToAnalyze : Option Int) : Option DeltaDetails :=
  if hasError then none
  else
    match sortedForSheet entryCounts sheetName with
    | [] => none
    | first :: rest =>
      let todayDate := first.date
      let todayCount := first.count
      let cmp : String × Int := resolveCompare entryCounts sheetName customCompareDate rest
      if cmp.fst = "" then none
      else
        let change := todayCount - cmp.snd
        let delta : DeltaChange :=
          { today := todayCount, yesterday := cmp.snd, change := change,
            percentageChange :=
              if cmp.snd = 0 then 0 else (change : ℚ) / (cmp.snd : ℚ) * 100 }
        if intTruthy columnToAnalyze then
          some { change := delta,
                 columnChanges := analyzeColumnChanges sheetData (columnToAnalyze.getD 0) cmp.fst todayDate }
        else some { change := delta, columnChanges := none }

/-! ## Snapshot merging (fetchData) -/

/-- The entry-count merge of fetchData: previous entries of the refreshed
sheet are dropped, the fresh ones are appended. -/
def mergeEntryCounts (prev fresh : List EntryCount) (sheetName : String) : List EntryCount :=
  prev.filter (fun c => !(c.sheetName == sheetName)) ++ fresh

/-- The comparison merge of fetchData, identical in shape. -/
def mergeComparisons (prev fresh : List ComparisonResult) (sheetName : String) :
    List ComparisonResult :=
  prev.filter (fun c => !(c.sheetName == sheetName)) ++ fresh

/-! ## Order and sorting lemmas -/

theorem lexLe_refl (x : List Char) : lexLe x x = true := by
induction x with
| nil => rfl
| cons c cs ih => simp [lexLe, Nat.lt_irrefl, ih]

theorem lexLe_total (x y : List Char) : lexLe x y = true ∨ lexLe y x = true := by
induction x generalizing y with
| nil => left; rfl
| cons c cs ih =>
  cases y with
  | nil => right; rfl
  | cons d ds =>
    by_cases h1 : c.toNat < d.toNat
    · left; simp [lexLe, h1]
    · by_cases h2 : d.toNat < c.toNat
      · right; simp [lexLe, h2]
      · rcases ih ds with h | h
        · left; simp [lexLe, h1, h2, h]
        · right; simp [lexLe, h1, h2, h]

theorem lexLe_trans (x y z : List Char) (hxy : lexLe x y = true) (hyz : lexLe y z = true) :
    lexLe x z = true := by
induction x generalizing y z with
| nil => rfl
| cons c cs ih =>
  cases y with
  | nil => simp [lexLe] at hxy
  | cons d ds =>
    cases z with
    | nil => simp [lexLe] at hyz
    | cons e es =>
      have hdc : ¬ d.toNat < c.toNat := by
        intro h
        simp [lexLe, h] at hxy
        omega
      have hed : ¬ e.toNat < d.toNat := by
        intro h
        simp [lexLe, h] at hyz
        omega
      by_cases h5 : c.toNat < e.toNat
      · simp [lexLe, h5]
      · have h6 : ¬ e.toNat < c.toNat := by omega
        have hcd : ¬ c.toNat < d.toNat := by omega
        have hde : ¬ d.toNat < e.toNat := by omega
        simp only [lexLe, hcd, hdc, if_false, ite_false, if_neg] at hxy
        simp only [lexLe, hde, hed, if_false, ite_false, if_neg] at hyz
        simp only [lexLe, h5, h6, if_false, ite_false, if_neg]
        exact ih ds es hxy hyz

theorem strLe_refl (s : String) : strLe s s = true :=
lexLe_refl s.data

theorem strLe_total (a b : String) : strLe a b = true ∨ strLe b a = true :=
lexLe_total a.data b.data

theorem strLe_trans (a b c : String) (h1 : strLe a b = true) (h2 : strLe b c = true) :
    strLe a c = true :=
lexLe_trans a.data b.data c.data h1 h2

theorem insertBy_perm (le : α → α → Bool) (a : α) (l : List α) :
    (insertBy le a l).Perm (a :: l) := by
induction l with
| nil => exact List.Perm.refl _
| cons b bs ih =>
  unfold insertBy
  by_cases h : le a b
  · simp [h]
  · simp only [h, if_false, ite_false, if_neg]
    exact (ih.cons b).trans (List.Perm.swap a b bs)

theorem sortBy_perm (le : α → α → Bool) (l : List α) : (sortBy le l).Perm l := by
induction l with
| nil => exact List.Perm.refl _
| cons a as ih =>
  exact (insertBy_perm le a (sortBy le as)).trans (ih.cons a)

theorem sortBy_length (le : α → α → Bool) (l : List α) : (sortBy le l).length = l.length :=
(sortBy_perm le l).length_eq

theorem pairwise_insertBy (le : α → α → Bool)
    (htrans : ∀ x y z, le x y = true → le y z = true → le x z = true)
    (htot : ∀ x y, le x y = true ∨ le y x = true)
    (a : α) (l : List α) (h : l.Pairwise (fun x y => le x y = true)) :
    (insertBy le a l).Pairwise (fun x y => le x y = true) := by
induction l with
| nil => simp [insertBy]
| cons b bs ih =>
  rcases List.pairwise_cons.mp h with ⟨hb, hbs⟩
  unfold insertBy
  by_cases hab : le a b
  · simp only [hab, if_pos, ite_true, if_true]
    refine List.pairwise_cons.mpr ⟨?_, h⟩
    intro x hx
    rcases List.mem_cons.mp hx with rfl | hx2
    · exact hab
    · exact htrans a b x hab (hb x hx2)
  · simp only [hab, if_false, ite_false, if_neg]
    refine List.pairwise_cons.mpr ⟨?_, ih hbs⟩
    intro x hx
    have hx3 := (insertBy_perm le a bs).mem_iff.mp hx
    rcases List.mem_cons.mp hx3 with rfl | hx4
    · rcases htot x b with hh | hh
      · exact absurd hh hab
      · exact hh
    · exact hb x hx4

theorem pairwise_sortBy (le : α → α → Bool)
    (htrans : ∀ x y z, le x y = true → le y z = true → le x z = true)
    (htot : ∀ x y, le x y = true ∨ le y x = true)
    (l : List α) : (sortBy le l).Pairwise (fun x y => le x y = true) := by
induction l with
| nil => simp [sortBy]
| cons a as ih => exact pairwise_insertBy le htrans htot a (sortBy le as) ih

theorem byDateDesc_trans (x y z : EntryCount)
    (h1 : byDateDesc x y = true) (h2 : byDateDesc y z = true) : byDateDesc x z = true :=
strLe_trans z.date y.date x.date h2 h1

theorem byDateDesc_total (x y : EntryCount) :
    byDateDesc x y = true ∨ byDateDesc y x = true :=
(strLe_total y.date x.date).imp id id

/-- Every element of the sorted sheet slice has a date no greater than the
head of the sorted list: the head is the most recent entry. -/
theorem sortedForSheet_head_max (entryCounts : List EntryCount) (sheetName : String)
    (first : EntryCount) (rest : List EntryCount)
    (hsort : sortedForSheet entryCounts sheetName = first :: rest) :
    ∀ e ∈ entryCounts.filter (fun entry => entry.sheetName == sheetName),
      strLe e.date first.date = true := by
intro e he
have hperm := sortBy_perm byDateDesc (entryCounts.filter (fun entry => entry.sheetName == sheetName))
have hmem : e ∈ first :: rest := by
  rw [← hsort]
  exact (hperm.mem_iff).mpr he
have hpw := pairwise_sortBy byDateDesc
  (fun x y z h1 h2 => byDateDesc_trans x y z h1 h2)
  (fun x y => byDateDesc_total x y)
  (entryCounts.filter (fun entry => entry.sheetName == sheetName))
rw [sortedForSheet] at hsort
rw [hsort] at hpw
rcases List.mem_cons.mp hmem with rfl | hmem2
· exact strLe_refl e.date
· exact List.rel_of_pairwise_cons hpw hmem2

/-! ## Claim theorems -/

/-- Claim C6: for every raw row, an absent filter-group list and an empty
filter-group list both accept the row. -/
theorem applyFilters_empty_spec (row : List String) :
    applyFilters row none = true ∧ applyFilters row (some []) = true :=
⟨rfl, rfl⟩

/-- Claim C7: for every raw row and every list of filter groups all of
whose logical operators are AND, the row matches exactly when every filter
of every group satisfies its operator predicate on the cell at the 1-based
column of the original raw row, both sides lower-cased, a missing cell
read as the empty string. -/
theorem applyFilters_AND_spec (row : List String) (groups : List FilterGroup)
    (hAND : ∀ g ∈ groups, g.logicalOperator = LogicalOp.AND) :
    (applyFilters row (some groups) = true ↔
      ∀ g ∈ groups, ∀ f ∈ g.filters, applyFilter (cellValue row f.column) f = true) := by
cases groups with
| nil => simp [applyFilters]
| cons g gs =>
  simp only [applyFilters, List.isEmpty_cons, Bool.false_eq_true, if_false, ite_false,
    List.all_eq_true]
  refine forall₂_congr ?_
  intro g2 hg2
  simp [evalGroup, hAND g2 hg2, List.all_eq_true]

theorem applyFilters_AND_spec_witness :
    applyFilters ["YES", "x"] (some [⟨[⟨1, "yes", FilterOp.equals⟩], LogicalOp.AND⟩]) = true := by
refine (applyFilters_AND_spec ["YES", "x"] [⟨[⟨1, "yes", FilterOp.equals⟩], LogicalOp.AND⟩]
  (by decide)).mpr ?_
decide

/-- Claim C10: a group with an empty filters list accepts every row under
AND, but under OR it makes the whole filter-group list reject every row. -/
theorem emptyGroup_spec (row : List String) (groups : List FilterGroup) (g : FilterGroup)
    (hmem : g ∈ groups) (hempty : g.filters = []) :
    (g.logicalOperator = LogicalOp.AND → evalGroup row g = true) ∧
    (g.logicalOperator = LogicalOp.OR → applyFilters row (some groups) = false) := by
constructor
· intro hop
  simp [evalGroup, hop, hempty]
· intro hop
  have hgf : evalGroup row g = false := by simp [evalGroup, hop, hempty]
  have hne : groups.isEmpty = false := by
    cases groups with
    | nil => cases hmem
    | cons a t => rfl
  simp only [applyFilters, hne, Bool.false_eq_true, if_false, ite_false]
  exact List.all_eq_false.mpr ⟨g, hmem, by simp [hgf]⟩

theorem emptyGroup_spec_witness :
    applyFilters ["x"] (some [⟨[], LogicalOp.OR⟩]) = false :=
(emptyGroup_spec ["x"] [⟨[], LogicalOp.OR⟩] ⟨[], LogicalOp.OR⟩ (by decide) rfl).2 rfl

/-- Claim C3: countEntriesPerDay returns exactly 7 entries, the entry at
position i carrying the day i days before the reference date formatted
YYYY-MM-DD (so the list runs from most recent to oldest and includes
zero-count days), its count being the number of rows that match the
filters and whose date portion equals that formatted day, and every count
is nonnegative. -/
theorem countEntriesPerDay_spec (today : GDate) (rows : List SheetData) (name : String) :
    (countEntriesPerDay today rows name).length = 7 ∧
    ∀ i (h : i < (countEntriesPerDay today rows name).length),
      (countEntriesPerDay today rows name).get ⟨i, h⟩ =
        { date := fmtDate (subDays today i),
          count := ((rows.filter (fun row =>
            row.matchesFilters && (dateKey row.date == fmtDate (subDays today i)))).length : Int),
          sheetName := name } ∧
      0 ≤ ((countEntriesPerDay today rows name).get ⟨i, h⟩).count := by
have hlen : (countEntriesPerDay today rows name).length = 7 := by
  simp [countEntriesPerDay]
refine ⟨hlen, ?_⟩
intro i h
have hi : i < 7 := hlen ▸ h
have hget : (countEntriesPerDay today rows name).get ⟨i, h⟩ =
    { date := fmtDate (subDays today i),
      count := ((rows.filter (fun row =>
        row.matchesFilters && (dateKey row.date == fmtDate (subDays today i)))).length : Int),
      sheetName := name } := by
  simp [countEntriesPerDay, List.get_eq_getElem, List.getElem_map, List.getElem_range]
refine ⟨hget, ?_⟩
rw [hget]
exact Int.natCast_nonneg _

theorem countEntriesPerDay_spec_witness :
    (countEntriesPerDay ⟨2025, 1, 27⟩ [] "S").length = 7 ∧
    (countEntriesPerDay ⟨2025, 1, 27⟩ [] "S").getD 0 ⟨"", 0, "S"⟩ = ⟨"2025-01-27", 0, "S"⟩ := by
have h := countEntriesPerDay_spec ⟨2025, 1, 27⟩ [] "S"
refine ⟨h.1, ?_⟩
have h0 : 0 < (countEntriesPerDay ⟨2025, 1, 27⟩ [] "S").length := by
  rw [h.1]
  decide
have h2 : (countEntriesPerDay ⟨2025, 1, 27⟩ [] "S")[0] =
    { date := fmtDate (subDays ⟨2025, 1, 27⟩ 0),
      count := ((([] : List SheetData).filter (fun row =>
        row.matchesFilters && (dateKey row.date == fmtDate (subDays ⟨2025, 1, 27⟩ 0)))).length : Int),
      sheetName := "S" } := (h.2 0 h0).1
rw [List.getD_eq_getElem _ _ h0, h2]
decide

/-- Claim C4: calculateDelta is absent exactly when the sheet has fewer
than two entries; with at least two it returns the count of the most
recent entry of the descending date sort minus the count of the second
most recent, the head of the sort being maximal by date among the sheet
entries. -/
theorem calculateDelta_spec (entryCounts : List EntryCount) (sheetName : String) :
    (calculateDelta entryCounts sheetName = none ↔
      (entryCounts.filter (fun entry => entry.sheetName == sheetName)).length < 2) ∧
    ∀ first second rest,
      sortedForSheet entryCounts sheetName = first :: second :: rest →
      calculateDelta entryCounts sheetName =
        some { today := first.count, yesterday := second.count,
               change := first.count - second.count,
               percentageChange :=
                 if second.count = 0 then 0
                 else ((first.count - second.count : Int) : ℚ) / ((second.count : Int) : ℚ) * 100 } ∧
      (∀ e ∈ entryCounts.filter (fun entry => entry.sheetName == sheetName),
        strLe e.date first.date = true) := by
have hlen : (sortedForSheet entryCounts sheetName).length =
    (entryCounts.filter (fun entry => entry.sheetName == sheetName)).length :=
  sortBy_length _ _
cases hs : sortedForSheet entryCounts sheetName with
| nil =>
  rw [hs] at hlen
  simp at hlen
  constructor
  · simp [calculateDelta, hs]
    omega
  · intro first second rest heq
    exact List.noConfusion heq
| cons a t =>
  cases t with
  | nil =>
    rw [hs] at hlen
    simp at hlen
    constructor
    · simp [calculateDelta, hs]
      omega
    · intro first second rest heq
      exact List.noConfusion (List.cons.inj heq).2
  | cons b t2 =>
    rw [hs] at hlen
    simp at hlen
    constructor
    · constructor
      · intro hnone
        rw [calculateDelta, hs] at hnone
        cases hnone
      · intro hlt
        exfalso
        omega
    · intro first second rest heq
      injection heq with h1 heq2
      injection heq2 with h2 h3
      subst h1
      subst h2
      constructor
      · simp [calculateDelta, hs]
      · exact sortedForSheet_head_max entryCounts sheetName a (b :: t2) hs

theorem calculateDelta_spec_witness :
    calculateDelta [⟨"2025-01-02", 5, "S"⟩, ⟨"2025-01-01", 0, "S"⟩] "S" =
      some ⟨5, 0, 5, 0⟩ ∧
    strLe "2025-01-01" "2025-01-02" = true := by
have h := calculateDelta_spec [⟨"2025-01-02", 5, "S"⟩, ⟨"2025-01-01", 0, "S"⟩] "S"
have h2 := h.2 ⟨"2025-01-02", 5, "S"⟩ ⟨"2025-01-01", 0, "S"⟩ [] (by decide)
refine ⟨?_, ?_⟩
· rw [h2.1]
  decide
· exact h2.2 ⟨"2025-01-01", 0, "S"⟩ (by decide)

/-- Claim C9: the per-sheet merge of fetchData has replace-by-sheet-name
semantics: entries of other sheets are exactly the previous ones, and the
entries of the refreshed sheet are exactly the fresh ones, for both the
entry counts and the comparison results. -/
theorem mergeSnapshot_spec (prevE freshE : List EntryCount)
    (prevC freshC : List ComparisonResult) (S : String)
    (hE : ∀ e ∈ freshE, e.sheetName = S) (hC : ∀ c ∈ freshC, c.sheetName = S) :
    ((mergeEntryCounts prevE freshE S).filter (fun e => !(e.sheetName == S)) =
        prevE.filter (fun e => !(e.sheetName == S)) ∧
      (mergeEntryCounts prevE freshE S).filter (fun e => e.sheetName == S) = freshE) ∧
    ((mergeComparisons prevC freshC S).filter (fun c => !(c.sheetName == S)) =
        prevC.filter (fun c => !(c.sheetName == S)) ∧
      (mergeComparisons prevC freshC S).filter (fun c => c.sheetName == S) = freshC) := by
constructor
· constructor
  · rw [mergeEntryCounts, List.filter_append, List.filter_filter]
    have h1 : freshE.filter (fun e => !(e.sheetName == S)) = [] := by
      rw [List.filter_eq_nil_iff]
      intro a ha
      simp [hE a ha]
    have h2 : prevE.filter (fun a => !(a.sheetName == S) && !(a.sheetName == S)) =
        prevE.filter (fun e => !(e.sheetName == S)) := by
      apply List.filter_congr
      intro a _
      simp
    rw [h1, h2, List.append_nil]
  · rw [mergeEntryCounts, List.filter_append, List.filter_filter]
    have h1 : freshE.filter (fun e => e.sheetName == S) = freshE := by
      rw [List.filter_eq_self]
      intro a ha
      simp [hE a ha]
    have h2 : prevE.filter (fun a => (a.sheetName == S) && !(a.sheetName == S)) = [] := by
      rw [List.filter_eq_nil_iff]
      intro a _
      simp
    rw [h1, h2, List.nil_append]
· constructor
  · rw [mergeComparisons, List.filter_append, List.filter_filter]
    have h1 : freshC.filter (fun c => !(c.sheetName == S)) = [] := by
      rw [List.filter_eq_nil_iff]
      intro a ha
      simp [hC a ha]
    have h2 : prevC.filter (fun a => !(a.sheetName == S) && !(a.sheetName == S)) =
        prevC.filter (fun c => !(c.sheetName == S)) := by
      apply List.filter_congr
      intro a _
      simp
    rw [h1, h2, List.append_nil]
  · rw [mergeComparisons, List.filter_append, List.filter_filter]
    have h1 : freshC.filter (fun c => c.sheetName == S) = freshC := by
      rw [List.filter_eq_self]
      intro a ha
      simp [hC a ha]
    have h2 : prevC.filter (fun a => (a.sheetName == S) && !(a.sheetName == S)) = [] := by
      rw [List.filter_eq_nil_iff]
      intro a _
      simp
    rw [h1, h2, List.nil_append]

theorem mergeSnapshot_spec_witness :
    (mergeEntryCounts [⟨"2025-01-01", 1, "A"⟩, ⟨"2025-01-01", 2, "S"⟩]
        [⟨"2025-01-02", 9, "S"⟩] "S").filter (fun e => !(e.sheetName == "S")) =
      [⟨"2025-01-01", 1, "A"⟩] ∧
    (mergeEntryCounts [⟨"2025-01-01", 1, "A"⟩, ⟨"2025-01-01", 2, "S"⟩]
        [⟨"2025-01-02", 9, "S"⟩] "S").filter (fun e => e.sheetName == "S") =
      [⟨"2025-01-02", 9, "S"⟩] := by
have h := mergeSnapshot_spec [⟨"2025-01-01", 1, "A"⟩, ⟨"2025-01-01", 2, "S"⟩]
  [⟨"2025-01-02", 9, "S"⟩] [] [] "S" (by decide) (by intro c hc; cases hc)
refine ⟨?_, h.1.2⟩
rw [h.1.1]
decide

theorem ite_isEmpty_none (A R : List String) (c : ColumnChange) :
    (if A.isEmpty && R.isEmpty then (none : Option ColumnChange) else some c) = none ↔
      (A = [] ∧ R = []) := by
by_cases h : (A.isEmpty && R.isEmpty) = true
· rw [if_pos h]
  simp only [Bool.and_eq_true, List.isEmpty_iff] at h
  simp [h]
· rw [if_neg h]
  simp only [Bool.and_eq_true, List.isEmpty_iff] at h
  constructor
  · intro hx
    exact Option.noConfusion hx
  · intro hx
    exact absurd hx h

/-- Claim C5: when the two day-entry lists are disjoint, analyzeColumnChanges
returns added equal to the day2 entries and removed equal to the day1
entries (absent only when both are empty); when the two lists are equal as
sets the result is absent; and in general the result is absent exactly
when both the added and the removed filters are empty. -/
theorem analyzeColumnChanges_spec (rows : List SheetData) (col : Int) (d1 d2 : String) :
    ((∀ e ∈ entriesFor rows col d2, e ∉ entriesFor rows col d1) →
     (∀ e ∈ entriesFor rows col d1, e ∉ entriesFor rows col d2) →
      analyzeColumnChanges rows col d1 d2 =
        if (entriesFor rows col d2).isEmpty && (entriesFor rows col d1).isEmpty then none
        else some { added := entriesFor rows col d2, removed := entriesFor rows col d1,
                    column := col, date1 := d1, date2 := d2 }) ∧
    ((∀ e, e ∈ entriesFor rows col d1 ↔ e ∈ entriesFor rows col d2) →
      analyzeColumnChanges rows col d1 d2 = none) ∧
    (analyzeColumnChanges rows col d1 d2 = none ↔
      ((entriesFor rows col d2).filter
        (fun entry => !((entriesFor rows col d1).contains entry)) = [] ∧
       (entriesFor rows col d1).filter
        (fun entry => !((entriesFor rows col d2).contains entry)) = [])) := by
refine ⟨?_, ?_, ?_⟩
· intro h21 h12
  have hadd : (entriesFor rows col d2).filter
      (fun entry => !((entriesFor rows col d1).contains entry)) = entriesFor rows col d2 := by
    rw [List.filter_eq_self]
    intro a ha
    simpa using h21 a ha
  have hrem : (entriesFor rows col d1).filter
      (fun entry => !((entriesFor rows col d2).contains entry)) = entriesFor rows col d1 := by
    rw [List.filter_eq_self]
    intro a ha
    simpa using h12 a ha
  simp only [analyzeColumnChanges]
  rw [hadd, hrem]
· intro hiff
  have hadd : (entriesFor rows col d2).filter
      (fun entry => !((entriesFor rows col d1).contains entry)) = [] := by
    rw [List.filter_eq_nil_iff]
    intro a ha
    simpa using (hiff a).mpr ha
  have hrem : (entriesFor rows col d1).filter
      (fun entry => !((entriesFor rows col d2).contains entry)) = [] := by
    rw [List.filter_eq_nil_iff]
    intro a ha
    simpa using (hiff a).mp ha
  simp only [analyzeColumnChanges]
  rw [hadd, hrem]
  rfl
· simp only [analyzeColumnChanges]
  exact ite_isEmpty_none _ _ _

theorem analyzeColumnChanges_spec_witness :
    analyzeColumnChanges
      [⟨"2024-01-01 10:00", ["a"], 1, true⟩, ⟨"2024-01-02 11:00", ["b"], 2, true⟩] 1
      "2024-01-01" "2024-01-02" =
      some ⟨["b"], ["a"], 1, "2024-01-01", "2024-01-02"⟩ := by
have h := (analyzeColumnChanges_spec
  [⟨"2024-01-01 10:00", ["a"], 1, true⟩, ⟨"2024-01-02 11:00", ["b"], 2, true⟩] 1
  "2024-01-01" "2024-01-02").1 (by decide) (by decide)
rw [h]
decide

/-- Claim C8: the fetchSheetData row transform never aborts the batch (the
output has one parsed row per raw row); a malformed row degrades to the
empty parsed row; a proper row with the date column in bounds yields the
extracted date and the values with the date column removed, one shorter
than the original; a proper row with the date column out of bounds yields
an empty date and the full original values. -/
theorem parseRows_spec (dci : Nat) (groups : Option (List FilterGroup)) (rows : List RawRow) :
    (parseRows dci groups rows).length = rows.length ∧
    (∀ (i : Nat), rows[i]? = some RawRow.malformed →
      (parseRows dci groups rows)[i]? =
        some { date := "", values := [], rowIndex := i + 1, matchesFilters := false }) ∧
    (∀ (i : Nat) (cells : List String), rows[i]? = some (RawRow.proper cells) →
      (dci < cells.length →
        (parseRows dci groups rows)[i]? =
          some { date := cells.getD dci "",
                 values := cells.take dci ++ cells.drop (dci + 1),
                 rowIndex := i + 1,
                 matchesFilters := applyFilters cells groups } ∧
        (cells.take dci ++ cells.drop (dci + 1)).length + 1 = cells.length) ∧
      (¬ dci < cells.length →
        (parseRows dci groups rows)[i]? =
          some { date := "", values := cells, rowIndex := i + 1,
                 matchesFilters := applyFilters cells groups })) := by
refine ⟨?_, ?_, ?_⟩
· simp [parseRows, List.enum_length]
· intro i hmal
  rw [parseRows, List.getElem?_map, List.getElem?_enum, hmal]
  rfl
· intro i cells hcells
  constructor
  · intro hb
    constructor
    · rw [parseRows, List.getElem?_map, List.getElem?_enum, hcells]
      simp [parseRow, hb]
    · simp only [List.length_append, List.length_take, List.length_drop]
      omega
  · intro hnb
    rw [parseRows, List.getElem?_map, List.getElem?_enum, hcells]
    simp [parseRow, hnb]

theorem parseRows_spec_witness :
    (parseRows 0 none [RawRow.proper ["2024-01-01", "a"], RawRow.malformed]).length = 2 ∧
    (parseRows 0 none [RawRow.proper ["2024-01-01", "a"], RawRow.malformed])[0]? =
      some ⟨"2024-01-01", ["a"], 1, true⟩ ∧
    (parseRows 0 none [RawRow.proper ["2024-01-01", "a"], RawRow.malformed])[1]? =
      some ⟨"", [], 2, false⟩ := by
have h := parseRows_spec 0 none [RawRow.proper ["2024-01-01", "a"], RawRow.malformed]
refine ⟨h.1, ?_, ?_⟩
· have h2 := ((h.2.2 0 ["2024-01-01", "a"] rfl).1 (by decide)).1
  rw [h2]
  decide
· exact h.2.1 1 rfl

/-- Claim C1, counterexample: with two entries for the sheet (so a second
most-recent entry is available) and a custom date matching no entry,
calculateDeltaWithCustomDate returns absent instead of falling back to the
second most-recent entry. -/
theorem customDateDelta_cex :
    calculateDeltaWithCustomDate
      [⟨"2025-01-02", 5, "S"⟩, ⟨"2025-01-01", 3, "S"⟩] "S" (some "2024-12-25") = none ∧
    sortedForSheet [⟨"2025-01-02", 5, "S"⟩, ⟨"2025-01-01", 3, "S"⟩] "S" =
      [⟨"2025-01-02", 5, "S"⟩, ⟨"2025-01-01", 3, "S"⟩] ∧
    findCustomEntry [⟨"2025-01-02", 5, "S"⟩, ⟨"2025-01-01", 3, "S"⟩] "S" "2024-12-25" =
      none := by
refine ⟨?_, ?_, ?_⟩ <;> decide

/-- Claim C1 (amended): with a non-empty customDate, getDeltaDetails uses
the matching entry when one exists, falls back to the second most-recent
entry (whose formatted date is non-empty) when there is no match, and is
absent only when neither exists; calculateDeltaWithCustomDate uses the
matching entry when one exists but, unlike getDeltaDetails, returns
absent when the customDate matches no entry, with no fallback. -/
theorem customDateDelta_spec (entryCounts : List EntryCount) (sheetName cd : String)
    (sheetData : List SheetData) (hcd : cd ≠ "") :
    (sortedForSheet entryCounts sheetName = [] →
      getDeltaDetails false (some cd) entryCounts sheetName sheetData none = none ∧
      calculateDeltaWithCustomDate entryCounts sheetName (some cd) = none) ∧
    (∀ first rest, sortedForSheet entryCounts sheetName = first :: rest →
      (∀ e, findCustomEntry entryCounts sheetName cd = some e →
        getDeltaDetails false (some cd) entryCounts sheetName sheetData none =
          some ⟨⟨first.count, e.count, first.count - e.count,
            if e.count = 0 then 0
            else ((first.count - e.count : Int) : ℚ) / ((e.count : Int) : ℚ) * 100⟩, none⟩ ∧
        calculateDeltaWithCustomDate entryCounts sheetName (some cd) =
          some ⟨first.count, e.count, first.count - e.count,
            if e.count = 0 then 0
            else ((first.count - e.count : Int) : ℚ) / ((e.count : Int) : ℚ) * 100⟩) ∧
      (findCustomEntry entryCounts sheetName cd = none →
        calculateDeltaWithCustomDate entryCounts sheetName (some cd) = none ∧
        (∀ second rest2, rest = second :: rest2 → second.date ≠ "" →
          getDeltaDetails false (some cd) entryCounts sheetName sheetData none =
            some ⟨⟨first.count, second.count, first.count - second.count,
              if second.count = 0 then 0
              else ((first.count - second.count : Int) : ℚ) /
                ((second.count : Int) : ℚ) * 100⟩, none⟩) ∧
        (rest = [] →
          getDeltaDetails false (some cd) entryCounts sheetName sheetData none = none))) := by
have hbeq : (cd == "") = false := by
  simp [hcd]
constructor
· intro hnil
  constructor
  · simp [getDeltaDetails, hnil]
  · simp [calculateDeltaWithCustomDate, hnil]
· intro first rest hsort
  constructor
  · intro e hfind
    have hpred := List.find?_some (by rw [findCustomEntry] at hfind; exact hfind)
    have hdate : e.date = cd := by
      simp only [Bool.and_eq_true, beq_iff_eq] at hpred
      exact hpred.2
    have hedate : ¬ (e.date = "") := by
      rw [hdate]
      exact hcd
    constructor
    · simp [getDeltaDetails, resolveCompare, hsort, strTruthy, hbeq, hfind, hedate, intTruthy]
    · simp [calculateDeltaWithCustomDate, hsort, strTruthy, hbeq, hfind]
  · intro hfindnone
    refine ⟨?_, ?_, ?_⟩
    · simp [calculateDeltaWithCustomDate, hsort, strTruthy, hbeq, hfindnone]
    · intro second rest2 hrest hsecond
      subst hrest
      simp [getDeltaDetails, resolveCompare, hsort, strTruthy, hbeq, hfindnone, hsecond, intTruthy]
    · intro hrestnil
      subst hrestnil
      simp [getDeltaDetails, resolveCompare, hsort, strTruthy, hbeq, hfindnone]

theorem customDateDelta_spec_witness :
    getDeltaDetails false (some "2025-01-01")
      [⟨"2025-01-02", 5, "S"⟩, ⟨"2025-01-01", 0, "S"⟩] "S" [] none =
      some ⟨⟨5, 0, 5, 0⟩, none⟩ ∧
    calculateDeltaWithCustomDate
      [⟨"2025-01-02", 5, "S"⟩, ⟨"2025-01-01", 0, "S"⟩] "S" (some "2025-01-01") =
      some ⟨5, 0, 5, 0⟩ := by
have h := ((customDateDelta_spec
  [⟨"2025-01-02", 5, "S"⟩, ⟨"2025-01-01", 0, "S"⟩] "S" "2025-01-01" []
  (by decide)).2 ⟨"2025-01-02", 5, "S"⟩ [⟨"2025-01-01", 0, "S"⟩]
  (by decide)).1 ⟨"2025-01-01", 0, "S"⟩ (by decide)
constructor
· rw [h.1]
  decide
· rw [h.2]
  decide

theorem adjPairs_mem (l : List α) (p : α × α) (hp : p ∈ adjPairs l) :
    p.1 ∈ l ∧ p.2 ∈ l := by
induction l with
| nil => simp [adjPairs] at hp
| cons a t ih =>
  cases t with
  | nil => simp [adjPairs] at hp
  | cons b t2 =>
    rw [adjPairs] at hp
    rcases List.mem_cons.mp hp with rfl | hp2
    · exact ⟨List.mem_cons_self _ _, List.mem_cons_of_mem _ (List.mem_cons_self _ _)⟩
    · rcases ih hp2 with ⟨h1, h2⟩
      exact ⟨List.mem_cons_of_mem _ h1, List.mem_cons_of_mem _ h2⟩

/-- The shape of every entry of the differences array of compareData. -/
theorem pairDifferences_shape (previous current : SheetData) (d : Difference)
    (hd : d ∈ pairDifferences previous current) :
    ∃ (i : Nat) (v : String), v ∈ current.values ∧
      d.previous = cellNum previous.values i ∧
      d.current = orZero (jsNumber v) ∧
      d.percentageChange =
        (if cellNum previous.values i = JSVal.fin 0 then JSVal.fin 0
         else jsMul (jsDiv (jsSub (orZero (jsNumber v)) (cellNum previous.values i))
           (cellNum previous.values i)) (JSVal.fin 100)) := by
rw [pairDifferences] at hd
rcases List.mem_filter.mp hd with ⟨hmap, _⟩
rcases List.mem_map.mp hmap with ⟨pr, hpr, heq⟩
rcases List.mem_enum hpr with ⟨hlt, hv⟩
refine ⟨pr.1, pr.2, ?_, ?_, ?_, ?_⟩
· rw [hv]
  exact List.getElem_mem _
· rw [← heq]
· rw [← heq]
· rw [← heq]

/-- Every difference of every comparison result comes from some adjacent
pair of rows of the sheet data. -/
theorem compareData_shape (sheetData : List SheetData) (name : String)
    (r : ComparisonResult) (hr : r ∈ compareData sheetData name)
    (d : Difference) (hd : d ∈ r.differences) :
    ∃ previous current, previous ∈ sheetData ∧ current ∈ sheetData ∧
      d ∈ pairDifferences previous current := by
rw [compareData] at hr
rcases List.mem_filterMap.mp hr with ⟨p, hp, heq⟩
rcases adjPairs_mem sheetData p hp with ⟨h1, h2⟩
by_cases hne : (pairDifferences p.1 p.2).isEmpty
· rw [if_pos hne] at heq
  cases heq
· rw [if_neg hne] at heq
  injection heq with heq2
  refine ⟨p.1, p.2, h1, h2, ?_⟩
  rw [← heq2] at hd
  exact hd

/-- Claim C2 (amended): every percentage change is exactly 0 whenever its
denominator is 0, in the adjacent-row comparison as well as in all three
delta computations.  This half of the claim is insensitive to the exact
arithmetic of the number model, because the ternary guard of each source
computation returns the literal 0 before any arithmetic runs.  The
never-NaN-or-Infinity half of the original claim is false and is not
restated in any weakened form: a cell parsing to Infinity (the literal
string Infinity, see the counterexample) propagates to an infinite
percentage change, and in the double arithmetic of the source, which the
exact-rational model deliberately does not reproduce, even cells parsing
to finite doubles can overflow to an infinite percentage change. -/
theorem percentageChange_spec :
    (∀ (sheetData : List SheetData) (name : String),
      ∀ r ∈ compareData sheetData name, ∀ d ∈ r.differences,
        d.previous = JSVal.fin 0 → d.percentageChange = JSVal.fin 0) ∧
    (∀ (entryCounts : List EntryCount) (S : String) (d : DeltaChange),
      calculateDelta entryCounts S = some d → d.yesterday = 0 →
        d.percentageChange = 0) ∧
    (∀ (hasErr : Bool) (ccd : Option String) (entryCounts : List EntryCount) (S : String)
        (sd : List SheetData) (col : Option Int) (dd : DeltaDetails),
      getDeltaDetails hasErr ccd entryCounts S sd col = some dd →
      dd.change.yesterday = 0 → dd.change.percentageChange = 0) ∧
    (∀ (entryCounts : List EntryCount) (S : String) (cd2 : Option String) (d : DeltaChange),
      calculateDeltaWithCustomDate entryCounts S cd2 = some d → d.yesterday = 0 →
        d.percentageChange = 0) := by
refine ⟨?_, ?_, ?_, ?_⟩
· intro sheetData name r hr d hd hprev
  rcases compareData_shape sheetData name r hr d hd with ⟨previous, current, _, _, hdp⟩
  rcases pairDifferences_shape previous current d hdp with ⟨i, v, _, hdprev, _, hdpct⟩
  rw [hdpct, if_pos (by rw [← hdprev]; exact hprev)]
· intro entryCounts S d hsome hy
  cases hs : sortedForSheet entryCounts S with
  | nil =>
    rw [calculateDelta, hs] at hsome
    cases hsome
  | cons a t =>
    cases t with
    | nil =>
      rw [calculateDelta, hs] at hsome
      cases hsome
    | cons b t2 =>
      rw [calculateDelta, hs] at hsome
      injection hsome with hsome2
      rw [← hsome2] at hy ⊢
      simp only at hy
      simp [hy]
· intro hasErr ccd entryCounts S sd col dd hsome hy
  cases hasErr with
  | true =>
    rw [getDeltaDetails] at hsome
    cases hsome
  | false =>
    cases hs : sortedForSheet entryCounts S with
    | nil =>
      rw [getDeltaDetails] at hsome
      simp only [Bool.false_eq_true, if_false, ite_false, if_neg] at hsome
      rw [hs] at hsome
      cases hsome
    | cons first rest =>
      rw [getDeltaDetails] at hsome
      simp only [Bool.false_eq_true, if_false, ite_false, if_neg] at hsome
      rw [hs] at hsome
      simp only at hsome
      rcases hc : resolveCompare entryCounts S ccd rest with ⟨cdate, ccount⟩
      rw [hc] at hsome
      simp only at hsome
      by_cases hdz : cdate = ""
      · rw [if_pos hdz] at hsome
        cases hsome
      · rw [if_neg hdz] at hsome
        split at hsome <;>
        · injection hsome with hsome2
          rw [← hsome2] at hy ⊢
          simp only at hy
          simp [hy]
· intro entryCounts S cd2 d hsome hy
  cases hs : sortedForSheet entryCounts S with
  | nil =>
    rw [calculateDeltaWithCustomDate, hs] at hsome
    cases hsome
  | cons first rest =>
    rw [calculateDeltaWithCustomDate, hs] at hsome
    simp only at hsome
    split at hsome
    · cases hsome
    · injection hsome with hsome2
      rw [← hsome2] at hy ⊢
      simp only at hy
      simp [hy]

/-- Claim C2, counterexample: a cell holding the literal string Infinity
survives the Number conversion (Infinity is truthy, so the || 0 default
does not replace it) and yields an infinite percentage change in
compareData. -/
theorem percentageChange_cex :
    ((compareData [⟨"2025-01-01 10:00", ["1"], 1, true⟩,
        ⟨"2025-01-02 10:00", ["Infinity"], 2, true⟩] "S").map
      (fun r => r.differences.map (fun d => d.percentageChange))) = [[JSVal.inf]] := by
decide

theorem percentageChange_spec_witness :
    calculateDelta [⟨"2025-01-02", 5, "S"⟩, ⟨"2025-01-01", 0, "S"⟩] "S" =
      some ⟨5, 0, 5, 0⟩ ∧
    (⟨5, 0, 5, 0⟩ : DeltaChange).percentageChange = 0 := by
have h1 : calculateDelta [⟨"2025-01-02", 5, "S"⟩, ⟨"2025-01-01", 0, "S"⟩] "S" =
    some ⟨5, 0, 5, 0⟩ := by decide
exact ⟨h1, percentageChange_spec.2.1 _ "S" ⟨5, 0, 5, 0⟩ h1 rfl⟩

end Windo
